import Mathlib

/-!
Verification of the wallet-monitoring pipeline against its specification.

The definitions below are shallow embeddings of the Python sources:
`src/rate_limiter.py`, `src/wallet_monitor.py`, `src/profit_estimator.py`,
`src/api_auth.py`, `src/billing.py` and `src/api_service.py`.  Python floats
are modelled as rationals, SQLite tables and in-memory dicts as association
lists, and wall-clock instants as rational parameters.
-/

/-- Insert-or-overwrite on an association list, keeping the position of an
existing key (Python dict assignment / SQL `INSERT OR REPLACE`). -/
def dictSet {α : Type} (d : List (String × α)) (k : String) (v : α) :
    List (String × α) :=
  match d with
  | [] => [(k, v)]
  | (k', v') :: rest =>
      if k' = k then (k', v) :: rest else (k', v') :: dictSet rest k v

/-! ## Rate limiter (`src/rate_limiter.py`) -/

/-- Per-tier daily limits loaded from configuration
(`self.limits` in `RateLimiter.__init__`). -/
structure RLimits where
  free : Nat
  pro : Nat
  elite : Nat
deriving Repr, DecidableEq

/-- Embedding of `self.limits.get(tier, self.limits["free"])`. -/
def tierLimit (l : RLimits) : String → Nat
  | "free" => l.free
  | "pro" => l.pro
  | "elite" => l.elite
  | _ => l.free

/-- One entry of `self._counters`: `(count, last_reset)`. -/
structure RLEntry where
  count : Nat
  lastReset : ℚ
deriving Repr, DecidableEq

/-- Lookup of `self._counters[api_key_hash]` with the `defaultdict` default
`(0, time.time())`; `now` is the current instant. -/
def rlLookup (counters : List (String × RLEntry)) (h : String) (now : ℚ) :
    RLEntry :=
  match counters.lookup h with
  | some e => e
  | none => ⟨0, now⟩

/-- Embedding of `RateLimiter.check_limit(api_key_hash, tier)`.  `resetTime` is the value of
`self._get_reset_time()`, the start of the current UTC day; `now` the current
instant.  Returns `((allowed, remaining, limit), counters')`. -/
def check_limit (lim : RLimits) (resetTime now : ℚ)
    (counters : List (String × RLEntry)) (h tier : String) :
    (Bool × Nat × Nat) × List (String × RLEntry) :=
  let limit := tierLimit lim tier
  let e := rlLookup counters h now
  let count := if e.lastReset < resetTime then 0 else e.count
  let lastReset := if e.lastReset < resetTime then resetTime else e.lastReset
  let remaining := limit - count
  let allowed := decide (count < limit)
  let count' := if allowed then count + 1 else count
  ((allowed, remaining, limit), dictSet counters h ⟨count', lastReset⟩)

/-- A sequence of `check_limit` calls for one key-hash and tier, one per
instant in `nows`; returns the number of admitted requests and the final
counter map. -/
def rlRun (lim : RLimits) (resetTime : ℚ) (h tier : String) :
    List ℚ → List (String × RLEntry) → Nat × List (String × RLEntry)
  | [], counters => (0, counters)
  | now :: rest, counters =>
      let r := check_limit lim resetTime now counters h tier
      let r' := rlRun lim resetTime h tier rest r.2
      ((if r.1.1 then 1 else 0) + r'.1, r'.2)

/-! ## RPC circuit breaker (`AsyncRpcManager` in `src/wallet_monitor.py`) -/

/-- One entry of `self.circuit_state`: consecutive failures, the instant the
circuit opened, and the state string. -/
structure CircuitState where
  failures : Nat
  openedAt : ℚ
  state : String
deriving Repr, DecidableEq

/-- Embedding of `AsyncRpcManager._allow_request`: returns whether the call may proceed and
the (possibly half-opened) circuit state.  `pauseSec` is
`RPC_CIRCUIT_BREAKER_PAUSE_SEC`. -/
def allow_request (pauseSec now : ℚ) (s : CircuitState) : Bool × CircuitState :=
  if s.state = "open" then
    if pauseSec ≤ now - s.openedAt then (true, { s with state := "half-open" })
    else (false, s)
  else (true, s)

/-- Embedding of `AsyncRpcManager._record_failure` (metric and endpoint rotation side
effects dropped).  `nCb` is `RPC_CIRCUIT_BREAKER_FAILURES`. -/
def record_failure (nCb : Nat) (now : ℚ) (s : CircuitState) : CircuitState :=
  let s' : CircuitState := { s with failures := s.failures + 1 }
  if nCb ≤ s'.failures then { s' with state := "open", openedAt := now }
  else s'

/-- Embedding of `AsyncRpcManager._record_success`:
`state.update(failures 0, opened_at 0.0, state closed)`. -/
def record_success (_s : CircuitState) : CircuitState :=
  ⟨0, 0, "closed"⟩

/-- One RPC attempt against an endpoint: gate through `_allow_request`; if
permitted, the call happens and its outcome (`success`) is recorded.  Returns
whether the call was permitted and the next circuit state. -/
def rpcAttempt (nCb : Nat) (pauseSec now : ℚ) (success : Bool)
    (s : CircuitState) : Bool × CircuitState :=
  let g := allow_request pauseSec now s
  if g.1 then
    (true, if success then record_success g.2 else record_failure nCb now g.2)
  else (false, g.2)

/-! ## Profit estimator (`src/profit_estimator.py`) -/

/-- The constant `WSOL_MINT`: the wrapped-native mint normalised 1:1 to SOL. -/
def WSOL_MINT : String := "So11111111111111111111111111111111111111112"

/-- One token-balance record as consumed by `parse_token_balance`:
`(owner, mint, uiAmount)`; decimals are parsed but unused. -/
structure TokenBalance where
  owner : String
  mint : String
  uiAmount : ℚ
deriving Repr, DecidableEq

/-- Embedding of `tx["meta"]`: pre/post native balances in lamports, the fee (absent keys
modelled as `none`; `meta.get("fee", 0)` defaults it to 0), token balances and
inner-instruction groups (each group by its instruction count). -/
structure TxMeta where
  preBalances : List Int
  postBalances : List Int
  fee : Option Nat
  preTokenBalances : List TokenBalance
  postTokenBalances : List TokenBalance
  innerInstructions : List Nat
deriving Repr, DecidableEq

/-- One top-level instruction: `inst.get("programIdIndex")`. -/
structure Instruction where
  programIdIndex : Option Int
deriving Repr, DecidableEq

/-- A fetched transaction: account keys (already flattened to pubkeys),
top-level instructions and the meta object. -/
structure Tx where
  accountKeys : List String
  instructions : List Instruction
  meta : TxMeta
deriving Repr, DecidableEq

/-- One signature entry as returned by `getSignaturesForAddress`. -/
structure SigInfo where
  signature : Option String
  slot : Option Int
deriving Repr, DecidableEq

/-- Python truthiness of an optional signature string:
`None` and `""` are falsy. -/
def sigTruthy : Option String → Option String
  | some s => if s = "" then none else some s
  | none => none

/-- Embedding of `lamport_change(pre, post, keys, wallet)`: the wallet's native balance
delta in SOL, 0 when the wallet is absent or the index is out of range. -/
def lamport_change (pre post : List Int) (keys : List String)
    (wallet : String) : ℚ :=
  match keys.indexOf? wallet with
  | some idx =>
      if idx < pre.length ∧ idx < post.length then
        (((post.getD idx 0 - pre.getD idx 0 : Int) : ℚ)) / 1000000000
      else 0
  | none => 0

/-- The amount held by `(wallet, mint)` in a token-balance list
(`pre_map` / `post_map` built with last-entry-wins, default 0). -/
def tokenAmount (tokens : List TokenBalance) (wallet mint : String) : ℚ :=
  tokens.foldl
    (fun acc t => if t.owner = wallet ∧ t.mint = mint then t.uiAmount else acc)
    0

/-- The set `all_mints` of `estimate_token_delta`: the distinct mints held by the
wallet across the pre and post token balances. -/
def walletMints (pre post : List TokenBalance) (wallet : String) :
    List String :=
  (((pre ++ post).filter (fun t => t.owner == wallet)).map (fun t => t.mint)).dedup

/-- A price cache snapshot: `token_prices` rows as `mint ↦ price_sol`
(TTL bookkeeping is irrelevant to the claims and omitted). -/
abbrev PriceMap := List (String × ℚ)

/-- Price resolution in `estimate_token_delta`: cache first, then the Jupiter
oracle, then Birdeye when an API key is configured; a fetched price is written
back to the cache.  `jup` and `bird` model the two HTTP oracles. -/
def resolve_price (cache : PriceMap) (jup bird : String → Option ℚ)
    (birdeyeKey : String) (mint : String) : Option ℚ × PriceMap :=
  match cache.lookup mint with
  | some p => (some p, cache)
  | none =>
      match jup mint with
      | some f => (some f, dictSet cache mint f)
      | none =>
          if birdeyeKey ≠ "" then
            match bird mint with
            | some f => (some f, dictSet cache mint f)
            | none => (none, cache)
          else (none, cache)

/-- Embedding of `estimate_token_delta(pre_tokens, post_tokens, wallet, price_cache)`:
returns `(delta_sol, delta_wsol_sol, cache')`.  Deltas below `1e-9` are
skipped; the wrapped-native mint bypasses pricing and accumulates into the
second component; unpriced mints are ignored. -/
def estimate_token_delta (preTokens postTokens : List TokenBalance)
    (wallet : String) (cache : PriceMap) (jup bird : String → Option ℚ)
    (birdeyeKey : String) : ℚ × ℚ × PriceMap :=
  (walletMints preTokens postTokens wallet).foldl
    (fun acc mint =>
      let d := tokenAmount postTokens wallet mint -
        tokenAmount preTokens wallet mint
      if |d| < 1 / 1000000000 then acc
      else if mint = WSOL_MINT then (acc.1, acc.2.1 + d, acc.2.2)
      else
        match resolve_price acc.2.2 jup bird birdeyeKey mint with
        | (some p, c') => (acc.1 + d * p, acc.2.1, c')
        | (none, c') => (acc.1, acc.2.1, c'))
    (0, 0, cache)

/-- The set `all_tokens_this_tx`: the distinct non-empty mints appearing in the pre or
post token balances of a transaction, any owner. -/
def txMints (tx : Tx) : List String :=
  (((tx.meta.preTokenBalances ++ tx.meta.postTokenBalances).map
      (fun t => t.mint)).filter (fun m => m != "")).dedup

/-- The set `program_set`: account keys designated by an in-range
`programIdIndex` of a top-level instruction. -/
def txPrograms (tx : Tx) : List String :=
  (tx.instructions.filterMap (fun inst =>
    match inst.programIdIndex with
    | some idx =>
        if 0 ≤ idx ∧ idx < (tx.accountKeys.length : Int) then
          some (tx.accountKeys.getD idx.toNat "")
        else none
    | none => none)).dedup

/-- The accumulator of the per-signature loop of
`estimate_profit_enriched`. -/
structure EstState where
  profit : ℚ
  totalTokens : Nat
  pricedTokens : Nat
  totalInnerInst : Nat
  uniqueMints : List String
  feeKnown : Bool
  feeTotal : ℚ
  solDeltaSum : ℚ
  tokenDeltaSum : ℚ
  counterparties : List String
  programs : List String
  cache : PriceMap
deriving Repr, DecidableEq

/-- The loop accumulator at entry of `estimate_profit_enriched`. -/
def initEstState (cache : PriceMap) : EstState :=
  ⟨0, 0, 0, 0, [], true, 0, 0, 0, [], [], cache⟩

/-- The body of the per-signature loop of `estimate_profit_enriched` for one
fetched transaction: native delta, token deltas with wrapped-native
normalisation, priced-token count, fee, inner-instruction count and
counterparty/program extraction. -/
def process_tx (wallet : String) (jup bird : String → Option ℚ)
    (birdeyeKey : String) (st : EstState) (tx : Tx) : EstState :=
  let keys := tx.accountKeys
  let solDelta := lamport_change tx.meta.preBalances tx.meta.postBalances
    keys wallet
  let mints := txMints tx
  let td := estimate_token_delta tx.meta.preTokenBalances
    tx.meta.postTokenBalances wallet st.cache jup bird birdeyeKey
  let tokenDeltaSol := td.1
  let deltaWsolSol := td.2.1
  let cache' := td.2.2
  let priced := (mints.filter (fun m => (cache'.lookup m).isSome)).length
  let fee : ℚ := ((tx.meta.fee.getD 0 : ℚ)) / 1000000000
  let progs := txPrograms tx
  { profit := st.profit + solDelta + tokenDeltaSol + deltaWsolSol - fee
    totalTokens := st.totalTokens + mints.length
    pricedTokens := st.pricedTokens + priced
    totalInnerInst := st.totalInnerInst + tx.meta.innerInstructions.length
    uniqueMints := (st.uniqueMints ++ mints).dedup
    feeKnown := st.feeKnown && !(decide (fee = 0))
    feeTotal := st.feeTotal + fee
    solDeltaSum := st.solDeltaSum + |deltaWsolSol| + |solDelta|
    tokenDeltaSum := st.tokenDeltaSum + |tokenDeltaSol|
    counterparties := st.counterparties ++
      keys.filter (fun a => decide (a ≠ wallet ∧ a ∉ progs))
    programs := st.programs ++ progs
    cache := cache' }

/-- The transactions actually processed by the loop: the first `maxTx`
signature entries, keeping those with a truthy signature for which the RPC
fetch (`rpc`) yields a transaction. -/
def processed_txs (rpc : String → Option Tx) (signatures : List SigInfo)
    (maxTx : Nat) : List Tx :=
  (signatures.take maxTx).filterMap (fun si =>
    match sigTruthy si.signature with
    | some s => rpc s
    | none => none)

/-- The loop accumulator after `estimate_profit_enriched` walked the
signature list. -/
def estimate_state (rpc : String → Option Tx) (wallet : String)
    (signatures : List SigInfo) (maxTx : Nat) (cache : PriceMap)
    (jup bird : String → Option ℚ) (birdeyeKey : String) : EstState :=
  (processed_txs rpc signatures maxTx).foldl
    (process_tx wallet jup bird birdeyeKey) (initEstState cache)

/-- The record `confidence_reasons` as assembled at the end of
`estimate_profit_enriched`. -/
structure ConfidenceReasons where
  price_coverage : ℚ
  route_complexity : ℚ
  fee_completeness : ℚ
  balance_alignment : ℚ
  total_tokens : Nat
  priced_tokens : Nat
  unique_mints : Nat
  total_inner_inst : Nat
deriving Repr, DecidableEq

/-- Embedding of `estimate_profit_enriched(rpc, wallet, signatures, max_tx, price_cache)`:
returns `(profit_sol, pnl_confidence, counterparties, programs,
confidence_reasons)`.  `balanceTolerancePct` is the configured
`BALANCE_TOLERANCE_PCT`. -/
def estimate_profit_enriched (rpc : String → Option Tx) (wallet : String)
    (signatures : List SigInfo) (maxTx : Nat) (cache : PriceMap)
    (jup bird : String → Option ℚ) (birdeyeKey : String)
    (balanceTolerancePct : ℚ) :
    ℚ × String × List String × List String × ConfidenceReasons :=
  let st := estimate_state rpc wallet signatures maxTx cache jup bird
    birdeyeKey
  let priceCoverage : ℚ :=
    if 0 < st.totalTokens then (st.pricedTokens : ℚ) / (st.totalTokens : ℚ)
    else 1
  let routeComplexity : ℚ :=
    min ((st.totalInnerInst : ℚ) /
      (max (signatures.take maxTx).length 1 : ℚ)) 10
  let feeCompleteness : ℚ := if st.feeKnown then 1 else 0
  let totalValorized := |st.solDeltaSum| + st.tokenDeltaSum
  let totalObserved := |st.profit| + st.feeTotal
  let tolerance := balanceTolerancePct / 100
  let balanceAlignment : ℚ :=
    if 0 < totalValorized ∧
        |totalValorized - totalObserved| / max totalValorized (1 / 1000000000)
          ≤ tolerance
    then 1 else 1 / 2
  let reasons : ConfidenceReasons :=
    ⟨priceCoverage, routeComplexity, feeCompleteness, balanceAlignment,
      st.totalTokens, st.pricedTokens, st.uniqueMints.length,
      st.totalInnerInst⟩
  let score : Int := 2 -
    (if priceCoverage < 7 / 10 ∨ 5 < routeComplexity then 1 else 0) -
    (if feeCompleteness < 1 ∨ balanceAlignment < 8 / 10 then 1 else 0)
  let pnlConfidence := ["low", "med", "high"].getD
    (max 0 (min 2 score)).toNat "low"
  (st.profit, pnlConfidence, st.counterparties.dedup, st.programs.dedup,
    reasons)

/-- The spec's balance-alignment formula, verbatim:
`1 if |total_valorized − total_observed| / max(total_valorized, ε) ≤ tolerance
else 0.5` with `ε = 1e-9` and no positivity guard on `total_valorized`. -/
def spec_balance_alignment (totalValorized totalObserved tolerance : ℚ) : ℚ :=
  if |totalValorized - totalObserved| / max totalValorized (1 / 1000000000)
      ≤ tolerance
  then 1 else 1 / 2

/-- Per-transaction `(sol_delta, token_delta_sol, delta_wsol_sol)` values of
the loop, threading the price cache exactly as the loop does. -/
def txDeltas (wallet : String) (jup bird : String → Option ℚ)
    (birdeyeKey : String) : PriceMap → List Tx → List (ℚ × ℚ × ℚ)
  | _, [] => []
  | cache, tx :: rest =>
      let sd := lamport_change tx.meta.preBalances tx.meta.postBalances
        tx.accountKeys wallet
      let td := estimate_token_delta tx.meta.preTokenBalances
        tx.meta.postTokenBalances wallet cache jup bird birdeyeKey
      (sd, td.1, td.2.1) :: txDeltas wallet jup bird birdeyeKey td.2.2 rest

/-- The sum of `fee / 10^9` over a transaction list
(missing fees default to 0). -/
def sumFees (txs : List Tx) : ℚ :=
  (txs.map (fun tx => ((tx.meta.fee.getD 0 : ℚ)) / 1000000000)).sum

/-- A transaction whose only effect on the wallet is a native balance change
of `deltaLamports` (plus the fee): the wallet is the sole account key and no
token balances are present. -/
def native_delta_tx (wallet : String) (preLamports deltaLamports : Int)
    (fee : Option Nat) : Tx :=
  { accountKeys := [wallet]
    instructions := []
    meta :=
      { preBalances := [preLamports]
        postBalances := [preLamports + deltaLamports]
        fee := fee
        preTokenBalances := []
        postTokenBalances := []
        innerInstructions := [] } }

/-- The same transaction with the change appearing instead as a
wrapped-native (WSOL) token-balance delta of the same amount: native balances
are unchanged and the wallet's WSOL account moves by
`deltaLamports / 10^9`. -/
def wsol_delta_tx (wallet : String) (baseLamports : Int) (preWsol : ℚ)
    (deltaLamports : Int) (fee : Option Nat) : Tx :=
  { accountKeys := [wallet]
    instructions := []
    meta :=
      { preBalances := [baseLamports]
        postBalances := [baseLamports]
        fee := fee
        preTokenBalances := [⟨wallet, WSOL_MINT, preWsol⟩]
        postTokenBalances :=
          [⟨wallet, WSOL_MINT, preWsol + (deltaLamports : ℚ) / 1000000000⟩]
        innerInstructions := [] } }

/-! ## Alert engine (`scan_wallet_async` and helpers in
`src/wallet_monitor.py`) -/

/-- The alert record built in `scan_wallet_async` (wall-clock fields
`timestamp` and `detect_ms` omitted). -/
structure AlertEvent where
  wallet : String
  profit : ℚ
  dex : String
  win_rate : ℚ
  counterparties : List String
  signal_type : String
  zscore : ℚ
  signature : String
  pnl_confidence : String
  dry_run : Bool
  tier : String
deriving Repr, DecidableEq

/-- Embedding of `should_alert(wallet, new_sigs)`: false on an empty batch, a seen
signature, or a wallet still in cooldown.  `seen` is `_seen_signatures`,
`lastAlertAt` is `_last_alert_at` (absent wallets default to 0.0). -/
def should_alert (wallet : String) (newSigs : List String)
    (seen : List (String × ℚ)) (lastAlertAt : List (String × ℚ))
    (cooldownSec now : ℚ) : Bool :=
  if newSigs = [] then false
  else if newSigs.any (fun s => (seen.lookup s).isSome) then false
  else if now - ((lastAlertAt.lookup wallet).getD 0) < cooldownSec then false
  else true

/-- The per-batch filter gauntlet of `scan_wallet_async`: baseline filter,
profit threshold, confidence filter, then `should_alert` (idempotence and
cooldown).  Returns the alert record appended to the alerts ring, or `none`
when a filter blocked the batch (blocked-alerts bookkeeping omitted). -/
def scan_batch_decision (gainFilter winRateFilter profitThreshold cooldownSec :
    ℚ) (wallet dex : String) (netTotal winRate : ℚ) (profit : ℚ)
    (pnlConfidence : String) (zscore : ℚ) (signalType : String)
    (counterparties : List String) (dryRun : Bool) (newSigs : List String)
    (seen : List (String × ℚ)) (lastAlertAt : List (String × ℚ)) (now : ℚ) :
    Option AlertEvent :=
  if newSigs = [] then none
  else if netTotal < gainFilter ∨ winRate < winRateFilter then none
  else if profit < profitThreshold then none
  else if ¬ (pnlConfidence = "med" ∨ pnlConfidence = "high") then none
  else if ¬ (should_alert wallet newSigs seen lastAlertAt cooldownSec now) then
    none
  else some
    { wallet := wallet
      profit := profit
      dex := dex
      win_rate := winRate
      counterparties := counterparties.take 10
      signal_type := signalType
      zscore := zscore
      signature := newSigs.headI
      pnl_confidence := pnlConfidence
      dry_run := dryRun
      tier := "free" }

/-- The signature-scanning loop of `filter_new_signatures` once a last-seen
signature `last` exists: collect entries until the first one whose signature
equals `last`, skipping falsy signatures. -/
def takeNewSigs (last : String) : List SigInfo → List SigInfo
  | [] => []
  | entry :: rest =>
      match sigTruthy entry.signature with
      | none => takeNewSigs last rest
      | some s =>
          if s = last then [] else entry :: takeNewSigs last rest

/-- Embedding of `filter_new_signatures(wallet, signatures)` for one wallet: `last` is
`_last_sig_by_wallet.get(wallet)`.  Returns the selected increment and the new
stored last-seen signature for the wallet. -/
def filter_new_signatures (last : Option String)
    (signatures : List SigInfo) : List SigInfo × Option String :=
  match signatures with
  | [] => ([], last)
  | first :: _ =>
      let subset :=
        match last with
        | none => signatures.take 5
        | some l => takeNewSigs l signatures
      match sigTruthy first.signature with
      | some s => (subset, some s)
      | none => (subset, last)

/-- An `OrderedDict` assignment followed by `move_to_end`: any existing entry for
the key is removed and the fresh entry appended at the recent end. -/
def od_insert_move_to_end (seen : List (String × ℚ)) (k : String) (v : ℚ) :
    List (String × ℚ) :=
  (seen.filter (fun p => p.1 != k)) ++ [(k, v)]

/-- The eviction loop of `mark_alert`:
`while len(_seen_signatures) > MAX_SEEN_SIGNATURES: popitem(last=False)`. -/
def evict_oldest (maxSeen : Nat) : List (String × ℚ) → List (String × ℚ)
  | [] => []
  | p :: rest =>
      if maxSeen < (p :: rest).length then evict_oldest maxSeen rest
      else p :: rest

/-- Embedding of `mark_alert(wallet, sigs)`: stamp the wallet's last-alert instant, mark
every batch signature seen at the same instant, then evict oldest entries
down to `MAX_SEEN_SIGNATURES`.  Returns `(seen', last_alert_at')`. -/
def mark_alert (maxSeen : Nat) (now : ℚ) (wallet : String)
    (sigs : List String) (seen lastAlertAt : List (String × ℚ)) :
    List (String × ℚ) × List (String × ℚ) :=
  let seen' := sigs.foldl (fun d s => od_insert_move_to_end d s now) seen
  (evict_oldest maxSeen seen', dictSet lastAlertAt wallet now)

/-- The trailing block of distinct marked signatures produced by the
insertion loop of `mark_alert`: one entry per signature, at its last
occurrence, stamped `now`. -/
def sig_tail (now : ℚ) : List String → List (String × ℚ)
  | [] => []
  | s :: rest =>
      if s ∈ rest then sig_tail now rest else (s, now) :: sig_tail now rest

/-! ## API keys and billing (`src/api_auth.py`, `src/billing.py`) -/

/-- Modelled SHA-256 digest: an injective, non-idempotent function standing in
for `hashlib.sha256(..).hexdigest()`; only injectivity and
`sha256 s ≠ s` matter to the claims. -/
def sha256 (s : String) : String := "sha256:" ++ s

/-- Embedding of `ApiAuth.hash_key`. -/
def hash_key (apiKey : String) : String := sha256 apiKey

/-- A row of the `api_keys` table (`expires_at` omitted: the billing flows
under verification always create keys without an expiry). -/
structure ApiKeyRow where
  key_hash : String
  tier : String
  is_active : Bool
deriving Repr, DecidableEq

/-- A row of the `subscriptions` table.  `api_key_id` holds exactly what the
code inserts there: the key hash returned by `create_key`. -/
structure SubscriptionRow where
  api_key_id : String
  stripe_customer_id : String
  stripe_subscription_id : String
  tier : String
  status : String
deriving Repr, DecidableEq

/-- The shared on-disk store of keys and subscriptions. -/
structure BillingDb where
  api_keys : List ApiKeyRow
  subscriptions : List SubscriptionRow
deriving Repr, DecidableEq

/-- Embedding of `ApiAuth.create_key(tier)`: the freshly generated random token is passed
in as `generatedKey`.  Returns `((api_key, key_hash), db')`. -/
def create_key (db : BillingDb) (generatedKey tier : String) :
    (String × String) × BillingDb :=
  let kh := hash_key generatedKey
  ((generatedKey, kh),
    { db with api_keys := db.api_keys ++ [⟨kh, tier, true⟩] })

/-- Embedding of `ApiAuth.validate_key(api_key)`: `(tier, is_active)` when the hash is
found, unexpired and active, else `none`. -/
def validate_key (db : BillingDb) (apiKey : String) :
    Option (String × Bool) :=
  let kh := hash_key apiKey
  match db.api_keys.find? (fun r => r.key_hash == kh) with
  | none => none
  | some r => if r.is_active then some (r.tier, r.is_active) else none

/-- Embedding of `ApiAuth.deactivate_key(api_key)`: hash the argument and clear
`is_active` on the matching row; returns whether any row was updated. -/
def deactivate_key (db : BillingDb) (apiKey : String) : Bool × BillingDb :=
  let kh := hash_key apiKey
  (db.api_keys.any (fun r => r.key_hash == kh),
    { db with api_keys := db.api_keys.map (fun r =>
        if r.key_hash == kh then { r with is_active := false } else r) })

/-- Embedding of `BillingService._handle_subscription_created(data)`: create a key for the
extracted tier and insert an active subscription row whose `api_key_id` is
the key hash.  Returns the plaintext API key. -/
def handle_subscription_created (db : BillingDb)
    (generatedKey customerId subId tier : String) :
    Option String × BillingDb :=
  let r := create_key db generatedKey tier
  (some r.1.1,
    { r.2 with subscriptions := r.2.subscriptions ++
        [⟨r.1.2, customerId, subId, tier, "active"⟩] })

/-- Embedding of `BillingService._handle_subscription_deleted(data)`: look up the
subscription by its external id, call `deactivate_key` on the stored
`api_key_id`, and mark the subscription cancelled. -/
def handle_subscription_deleted (db : BillingDb) (subId : String) :
    Option String × BillingDb :=
  match db.subscriptions.find?
      (fun s => s.stripe_subscription_id == subId) with
  | none => (none, db)
  | some sub =>
      let d := deactivate_key db sub.api_key_id
      (some sub.api_key_id,
        { d.2 with subscriptions := d.2.subscriptions.map (fun s =>
            if s.stripe_subscription_id == subId then
              { s with status := "cancelled" }
            else s) })

/-! ## Signal API service (`src/api_service.py`) -/

/-- JSON values, to state what `json.dumps` puts on the wire. -/
inductive Json where
  | str : String → Json
  | num : ℚ → Json
  | bool : Bool → Json
  | null : Json
  | arr : List Json → Json
  | obj : List (String × Json) → Json

/-- Python's `l[-n:]`: the last at most `n` elements. -/
def takeLast {α : Type} (n : Nat) (l : List α) : List α :=
  l.drop (l.length - n)

/-- The 200-response body of `_handle_signals`:
`json.dumps(dict of signals and count)` over `alerts_queue[-100:]`, the queued
alert events passed through verbatim. -/
def signals_response_body (alertsQueue : List Json) : Json :=
  let signals := takeLast 100 alertsQueue
  Json.obj [("signals", Json.arr signals),
    ("count", Json.num (signals.length : ℚ))]

/-- Embedding of `ApiHandler._handle_signals`: 401 without valid auth, 429 when the rate
limiter refuses, else 200 with the signals body.  `auth` is the result of
`_authenticate` (`(api_key, tier, is_active)`), `rateResult` the triple from
`check_limit`; rate-limit headers and metrics are omitted. -/
def handle_signals (auth : Option (String × String × Bool))
    (rateResult : Bool × Nat × Nat) (alertsQueue : List Json) : Nat × Json :=
  match auth with
  | none => (401, Json.obj [("error", Json.str "Unauthorized")])
  | some _ =>
      if ¬ rateResult.1 then
        (429, Json.obj [("error", Json.str "Rate limit exceeded")])
      else (200, signals_response_body alertsQueue)

/-! ## Verification fixtures: concrete inputs used by closed theorems -/

/-- An oracle that never returns a price (no network). -/
def no_oracle : String → Option ℚ := fun _ => none

/-- A fetcher serving the happy-path native-delta transaction:
+3 SOL native, fee 10^9 lamports. -/
def rpc_native_fixture : String → Option Tx :=
  fun _ => some (native_delta_tx "W" 10000000000 3000000000 (some 1000000000))

/-- The same trade expressed as a wrapped-native balance change. -/
def rpc_wsol_fixture : String → Option Tx :=
  fun _ => some (wsol_delta_tx "W" 10000000000 10 3000000000 (some 1000000000))

/-- A transaction whose fee field is present and equal to zero. -/
def fee_zero_tx : Tx :=
  ⟨["W"], [], ⟨[5], [5], some 0, [], [], []⟩⟩

/-- A queued alert object as built by `scan_wallet_async`, with its full
counterparty list. -/
def fixture_alert_json : Json :=
  Json.obj [("wallet", Json.str "W"), ("profit", Json.num 3),
    ("counterparties", Json.arr [Json.str "c1", Json.str "c2"]),
    ("pnl_confidence", Json.str "high")]

/-! ## Theorems -/

/-- C1: every alert record returned by the filter gauntlet of the per-wallet
scan (and hence appended to the alerts ring) has profit at least
`PROFIT_ALERT_THRESHOLD` and confidence label in the set containing
`med` and `high`. -/
theorem c1_ring_alerts_meet_threshold_and_confidence
    (gainFilter winRateFilter profitThreshold cooldownSec : ℚ)
    (wallet dex : String) (netTotal winRate profit : ℚ)
    (pnlConfidence : String) (zscore : ℚ) (signalType : String)
    (counterparties : List String) (dryRun : Bool) (newSigs : List String)
    (seen lastAlertAt : List (String × ℚ)) (now : ℚ) (a : AlertEvent)
    (h : scan_batch_decision gainFilter winRateFilter profitThreshold
      cooldownSec wallet dex netTotal winRate profit pnlConfidence zscore
      signalType counterparties dryRun newSigs seen lastAlertAt now
        = some a) :
    profitThreshold ≤ a.profit ∧
      (a.pnl_confidence = "med" ∨ a.pnl_confidence = "high") := by
  unfold scan_batch_decision at h
  split_ifs at h with h1 h2 h3 h4 h5
  cases h
  exact ⟨not_lt.mp h3, h4⟩

/-- Witness for C1: a concrete passing batch yields an alert meeting both
bounds. -/
theorem c1_witness :
    (2 : ℚ) ≤ (AlertEvent.mk "W" 5 "Raydium" 90 [] "Signal" 0 "s1" "high"
        true "free").profit ∧
      ((AlertEvent.mk "W" 5 "Raydium" 90 [] "Signal" 0 "s1" "high" true
          "free").pnl_confidence = "med" ∨
        (AlertEvent.mk "W" 5 "Raydium" 90 [] "Signal" 0 "s1" "high" true
          "free").pnl_confidence = "high") :=
  c1_ring_alerts_meet_threshold_and_confidence 1 50 2 60 "W" "Raydium" 10 90 5
    "high" 0 "Signal" [] true ["s1"] [] [] 100 _
    (by norm_num [scan_batch_decision, should_alert])

/-- C6: once an endpoint's circuit is open, attempts are refused while
`now − opened_at < T_pause` and permitted once the pause has elapsed; the
permitted half-open call resets the circuit to closed with failure count 0 on
success and re-opens it with a fresh `opened_at` on failure; and a failure
that brings the consecutive-failure count to `N_cb` opens the circuit. -/
theorem c6_circuit_breaker_lifecycle (nCb : Nat) (pauseSec now : ℚ)
    (s : CircuitState) :
    (s.state = "open" → now - s.openedAt < pauseSec →
      ∀ success, rpcAttempt nCb pauseSec now success s = (false, s)) ∧
    (s.state = "open" → pauseSec ≤ now - s.openedAt →
      rpcAttempt nCb pauseSec now true s = (true, ⟨0, 0, "closed"⟩)) ∧
    (s.state = "open" → pauseSec ≤ now - s.openedAt → nCb ≤ s.failures + 1 →
      rpcAttempt nCb pauseSec now false s
        = (true, ⟨s.failures + 1, now, "open"⟩)) ∧
    (s.state ≠ "open" → nCb ≤ s.failures + 1 →
      rpcAttempt nCb pauseSec now false s
        = (true, ⟨s.failures + 1, now, "open"⟩)) := by
  refine ⟨?_, ?_, ?_, ?_⟩
  · intro hs hlt success
    simp [rpcAttempt, allow_request, hs, not_le.mpr hlt]
  · intro hs hle
    simp [rpcAttempt, allow_request, hs, hle, record_success]
  · intro hs hle hn
    simp [rpcAttempt, allow_request, hs, hle, record_failure, hn]
  · intro hs hn
    simp [rpcAttempt, allow_request, hs, record_failure, hn]

/-- Witness for C6: with `N_cb = 3` and `T_pause = 5`, an open circuit at
`opened_at = 100` refuses a call at 102, permits one at 106 (success closes
it, failure re-opens it at 106), and a third consecutive failure from a
closed state opens the circuit. -/
theorem c6_witness :
    rpcAttempt 3 5 102 true ⟨3, 100, "open"⟩ = (false, ⟨3, 100, "open"⟩) ∧
    rpcAttempt 3 5 106 true ⟨3, 100, "open"⟩ = (true, ⟨0, 0, "closed"⟩) ∧
    rpcAttempt 3 5 106 false ⟨3, 100, "open"⟩ = (true, ⟨4, 106, "open"⟩) ∧
    rpcAttempt 3 5 90 false ⟨2, 0, "closed"⟩ = (true, ⟨3, 90, "open"⟩) :=
  ⟨(c6_circuit_breaker_lifecycle 3 5 102 ⟨3, 100, "open"⟩).1 rfl (by norm_num)
      true,
    (c6_circuit_breaker_lifecycle 3 5 106 ⟨3, 100, "open"⟩).2.1 rfl
      (by norm_num),
    (c6_circuit_breaker_lifecycle 3 5 106 ⟨3, 100, "open"⟩).2.2.1 rfl
      (by norm_num) (by norm_num),
    (c6_circuit_breaker_lifecycle 3 5 90 ⟨2, 0, "closed"⟩).2.2.2
      (by simp) (by norm_num)⟩

/-- C7: evaluation at the failing input.  Creating a subscription
(`customer.subscription.created`, id `sub_test123`, tier `pro`) and then
handling `customer.subscription.deleted` for the same id marks the
subscription cancelled but leaves the linked API key active:
`validate_key` with the original plaintext key still succeeds, because
`_handle_subscription_deleted` passes the stored key hash to
`deactivate_key`, which hashes it a second time and matches no row.  The
repository's own test (`test_stripe_webhook_subscription_deleted`) asserts
the validation returns `None`. -/
theorem c7_deleted_subscription_leaves_key_active :
    validate_key
      (handle_subscription_deleted
        (handle_subscription_created ⟨[], []⟩ "k0" "cus_test123" "sub_test123"
          "pro").2 "sub_test123").2 "k0" = some ("pro", true) ∧
    ((handle_subscription_deleted
        (handle_subscription_created ⟨[], []⟩ "k0" "cus_test123" "sub_test123"
          "pro").2 "sub_test123").2.subscriptions.map
        (fun s => s.status)) = ["cancelled"] ∧
    (deactivate_key
      (handle_subscription_created ⟨[], []⟩ "k0" "cus_test123" "sub_test123"
        "pro").2 (hash_key "k0")).1 = false := by
  decide

/-- C8 counterexample: on an admitted free-tier request the signals endpoint
returns the queued alert object verbatim, full counterparty list included,
in a body whose only keys are `signals` and `count` (no disclaimer, no
upgrade hint), and the body is identical for the free, pro and elite
tiers. -/
theorem c8_counterexample_no_tier_shaping :
    handle_signals (some ("k", "free", true)) (true, 9, 10)
        [fixture_alert_json]
      = (200, Json.obj [("signals", Json.arr [fixture_alert_json]),
          ("count", Json.num 1)]) ∧
    (handle_signals (some ("k", "free", true)) (true, 9, 10)
        [fixture_alert_json]).2
      = (handle_signals (some ("k2", "pro", true)) (true, 999, 1000)
        [fixture_alert_json]).2 ∧
    (handle_signals (some ("k3", "elite", true)) (true, 9999, 10000)
        [fixture_alert_json]).2
      = (handle_signals (some ("k", "free", true)) (true, 9, 10)
        [fixture_alert_json]).2 := by
  refine ⟨?_, rfl, rfl⟩
  simp [handle_signals, signals_response_body, takeLast]

/-- C8 amended: on every admitted authenticated request the signals endpoint
returns 200 with body `(signals, count)` holding the last at most 100 queued
alerts verbatim; the body does not depend on the caller's tier and contains
neither a disclaimer nor an upgrade hint. -/
theorem c8_signals_last_100_unshaped (k tier : String) (act : Bool)
    (rem lim : Nat) (queue : List Json) :
    handle_signals (some (k, tier, act)) (true, rem, lim) queue
      = (200, Json.obj [("signals", Json.arr (takeLast 100 queue)),
          ("count", Json.num ((takeLast 100 queue).length : ℚ))]) ∧
    (takeLast 100 queue).length ≤ 100 := by
  constructor
  · simp [handle_signals, signals_response_body]
  · simp only [takeLast, List.length_drop]
    omega

/-- When every entry carries a non-empty signature, the scanning loop of
`filter_new_signatures` is exactly `takeWhile (signature ≠ last)`. -/
theorem takeNewSigs_eq_takeWhile (l : String) :
    ∀ (sigs : List SigInfo),
      (∀ e ∈ sigs, ∃ s, e.signature = some s ∧ s ≠ "") →
      takeNewSigs l sigs
        = sigs.takeWhile (fun e => e.signature != some l) := by
  intro sigs
  induction sigs with
  | nil => intro _; rfl
  | cons entry rest ih =>
      intro hall
      obtain ⟨s, hs, hne⟩ := hall entry (List.mem_cons_self entry rest)
      have hrest := fun e he => hall e (List.mem_cons_of_mem entry he)
      have hT : sigTruthy entry.signature = some s := by
        simp [sigTruthy, hs, hne]
      simp only [takeNewSigs, hT, List.takeWhile, hs]
      by_cases hsl : s = l
      · subst hsl
        simp [sigTruthy, hne]
      · have hb : (s == l) = false := beq_eq_false_iff_ne.mpr hsl
        simp [sigTruthy, hne, hsl, ih hrest, bne, hb]

/-- C9: on a non-empty fetched signature list (whose entries all carry
non-empty signatures), the increment selection takes the first 5 entries when
no last-seen signature exists, and otherwise the prefix of entries strictly
newer than the last-seen one (stopping at the first equality); in both cases
the head signature of the list becomes the wallet's new stored
last-seen signature. -/
theorem c9_increment_selection (last : Option String) (sigs : List SigInfo)
    (hne : sigs ≠ [])
    (hall : ∀ e ∈ sigs, ∃ s, e.signature = some s ∧ s ≠ "") :
    (last = none → (filter_new_signatures last sigs).1 = sigs.take 5) ∧
    (∀ l, last = some l → (filter_new_signatures last sigs).1
        = sigs.takeWhile (fun e => e.signature != some l)) ∧
    (filter_new_signatures last sigs).2 = (sigs.head hne).signature := by
  obtain ⟨first, rest, rfl⟩ := List.exists_cons_of_ne_nil hne
  obtain ⟨s, hs, hsne⟩ := hall first (List.mem_cons_self first rest)
  have hT : sigTruthy first.signature = some s := by
    simp [sigTruthy, hs, hsne]
  refine ⟨?_, ?_, ?_⟩
  · rintro rfl
    simp [filter_new_signatures, hT]
  · rintro l rfl
    simp [filter_new_signatures, hT,
      takeNewSigs_eq_takeWhile l (first :: rest) hall]
  · cases last <;> simp [filter_new_signatures, hT, hs, sigTruthy, hsne]

/-- Witness for C9: with last-seen `b` and fetched list `a, b, c`, the
selection is the strictly-newer prefix `a` and the stored last-seen
becomes `a`. -/
theorem c9_witness :
    ((some "b" : Option String) = none →
      (filter_new_signatures (some "b")
        [⟨some "a", some 7⟩, ⟨some "b", some 6⟩, ⟨some "c", some 5⟩]).1
        = [⟨some "a", some 7⟩, ⟨some "b", some 6⟩,
            ⟨some "c", some 5⟩].take 5) ∧
    (∀ l, (some "b" : Option String) = some l →
      (filter_new_signatures (some "b")
        [⟨some "a", some 7⟩, ⟨some "b", some 6⟩, ⟨some "c", some 5⟩]).1
        = [⟨some "a", some 7⟩, ⟨some "b", some 6⟩,
            ⟨some "c", some 5⟩].takeWhile
            (fun e => e.signature != some l)) ∧
    (filter_new_signatures (some "b")
        [⟨some "a", some 7⟩, ⟨some "b", some 6⟩, ⟨some "c", some 5⟩]).2
      = (([⟨some "a", some 7⟩, ⟨some "b", some 6⟩,
          ⟨some "c", some 5⟩] : List SigInfo).head (by decide)).signature :=
  c9_increment_selection (some "b")
    [⟨some "a", some 7⟩, ⟨some "b", some 6⟩, ⟨some "c", some 5⟩]
    (by decide)
    (by
      intro e he
      simp only [List.mem_cons, List.not_mem_nil, or_false] at he
      rcases he with rfl | rfl | rfl
      · exact ⟨"a", rfl, by decide⟩
      · exact ⟨"b", rfl, by decide⟩
      · exact ⟨"c", rfl, by decide⟩)

/-- The map update `dictSet` stores the value under the key. -/
theorem lookup_dictSet_self {α : Type} (d : List (String × α)) (k : String)
    (v : α) : (dictSet d k v).lookup k = some v := by
  induction d with
  | nil => simp [dictSet]
  | cons p rest ih =>
      by_cases hk : p.1 = k
      · simp [dictSet, hk]
      · have hb : (k == p.1) = false := beq_eq_false_iff_ne.mpr (Ne.symm hk)
        simp [dictSet, hk, List.lookup, hb, ih]

/-- The insertion loop of `mark_alert` leaves the entries whose key is not
marked, in order, followed by one fresh entry per distinct marked
signature. -/
theorem fold_od_eq (now : ℚ) :
    ∀ (sigs : List String) (seen : List (String × ℚ)),
      sigs.foldl (fun d s => od_insert_move_to_end d s now) seen
        = seen.filter (fun p => decide (p.1 ∉ sigs)) ++ sig_tail now sigs := by
  intro sigs
  induction sigs with
  | nil => intro seen; simp [sig_tail]
  | cons s rest ih =>
      intro seen
      rw [List.foldl_cons, ih (od_insert_move_to_end seen s now)]
      unfold od_insert_move_to_end
      rw [List.filter_append, List.filter_filter]
      by_cases hs : s ∈ rest
      · have h1 : ∀ p : String × ℚ,
            (decide (p.1 ∉ rest) && (p.1 != s)) = decide (p.1 ∉ s :: rest) := by
          intro p
          by_cases hp : p.1 ∈ rest <;> by_cases hps : p.1 = s <;>
            simp [hp, hps, List.mem_cons, bne]
        simp only [List.filter_congr (fun p _ => h1 p)]
        simp [sig_tail, hs, bne]
      · have h1 : ∀ p : String × ℚ,
            (decide (p.1 ∉ rest) && (p.1 != s)) = decide (p.1 ∉ s :: rest) := by
          intro p
          by_cases hp : p.1 ∈ rest <;> by_cases hps : p.1 = s <;>
            simp [hp, hps, List.mem_cons, bne]
        simp only [List.filter_congr (fun p _ => h1 p)]
        simp [sig_tail, hs, bne]

/-- Every marked signature is found in the fresh tail, stamped `now`. -/
theorem sig_tail_lookup (now : ℚ) :
    ∀ (sigs : List String) (s : String), s ∈ sigs →
      (sig_tail now sigs).lookup s = some now := by
  intro sigs
  induction sigs with
  | nil => intro s hs; cases hs
  | cons a rest ih =>
      intro s hs
      by_cases ha : a ∈ rest
      · have hs' : s ∈ rest := by
          rcases List.mem_cons.mp hs with rfl | h
          · exact ha
          · exact h
        simp [sig_tail, ha, ih s hs']
      · rcases List.mem_cons.mp hs with rfl | h
        · simp [sig_tail, ha, List.lookup]
        · have hsa : s ≠ a := fun e => ha (e ▸ h)
          have hb : (s == a) = false := beq_eq_false_iff_ne.mpr hsa
          simp [sig_tail, ha, List.lookup, hb, ih s h]

/-- The fresh tail has one entry per distinct signature. -/
theorem sig_tail_length (now : ℚ) :
    ∀ (sigs : List String), (sig_tail now sigs).length ≤ sigs.length := by
  intro sigs
  induction sigs with
  | nil => simp [sig_tail]
  | cons a rest ih =>
      by_cases ha : a ∈ rest
      · simp only [sig_tail, ha, if_true]
        exact Nat.le_succ_of_le ih
      · simp only [sig_tail, ha, if_false, List.length_cons]
        exact Nat.succ_le_succ ih

/-- Looking up a key absent from the first block of an append skips it. -/
theorem lookup_append_right {B A : List (String × ℚ)} (s : String)
    (hA : ∀ p ∈ A, p.1 ≠ s) : (A ++ B).lookup s = B.lookup s := by
  induction A with
  | nil => rfl
  | cons p rest ih =>
      have hp : p.1 ≠ s := hA p (List.mem_cons_self p rest)
      have hb : (s == p.1) = false := beq_eq_false_iff_ne.mpr (Ne.symm hp)
      simp only [List.cons_append, List.lookup, hb]
      exact ih (fun q hq => hA q (List.mem_cons_of_mem p hq))

/-- The eviction loop keeps exactly the most recent `maxSeen` entries. -/
theorem evict_oldest_eq_drop (maxSeen : Nat) :
    ∀ (d : List (String × ℚ)),
      evict_oldest maxSeen d = d.drop (d.length - maxSeen) := by
  intro d
  induction d with
  | nil => simp [evict_oldest]
  | cons p rest ih =>
      by_cases h : maxSeen < (p :: rest).length
      · have hx : (p :: rest).length - maxSeen = (rest.length - maxSeen) + 1 := by
          simp only [List.length_cons] at h ⊢
          omega
        simp only [evict_oldest, h, if_true, hx, List.drop_succ_cons, ih]
      · have h' : ¬ maxSeen < rest.length + 1 := by simpa using h
        have hx : rest.length + 1 - maxSeen = 0 := by omega
        simp [evict_oldest, h', hx]

/-- C10: `mark_alert` records the same instant for the wallet's last-alert
entry and for every signature of the batch, and bounds the seen-signature set
by `MAX_SEEN_SIGNATURES` by evicting oldest entries — after every alert
emission, not only after garbage collection.  (The batch is assumed to fit
the bound, as any batch of at most `ALERT_BATCH_SIZE ≤ MAX_SEEN_SIGNATURES`
signatures does; otherwise eviction would reclaim part of the batch
itself.) -/
theorem c10_mark_alert_stamps_and_bound (maxSeen : Nat) (now : ℚ)
    (wallet : String) (sigs : List String)
    (seen lastAlertAt : List (String × ℚ)) (hlen : sigs.length ≤ maxSeen) :
    ((mark_alert maxSeen now wallet sigs seen lastAlertAt).2.lookup wallet
        = some now) ∧
    (∀ s ∈ sigs, (mark_alert maxSeen now wallet sigs seen
        lastAlertAt).1.lookup s = some now) ∧
    (mark_alert maxSeen now wallet sigs seen lastAlertAt).1.length
      ≤ maxSeen := by
  have hfold := fold_od_eq now sigs seen
  have hTlen : (sig_tail now sigs).length ≤ maxSeen :=
    le_trans (sig_tail_length now sigs) hlen
  refine ⟨?_, ?_, ?_⟩
  · simp only [mark_alert]
    exact lookup_dictSet_self lastAlertAt wallet now
  · intro s hs
    simp only [mark_alert, hfold, evict_oldest_eq_drop]
    have hk : (seen.filter (fun p => decide (p.1 ∉ sigs))
        ++ sig_tail now sigs).length - maxSeen
        ≤ (seen.filter (fun p => decide (p.1 ∉ sigs))).length := by
      rw [List.length_append]
      omega
    rw [List.drop_append_of_le_length hk]
    rw [lookup_append_right s ?hA]
    · exact sig_tail_lookup now sigs s hs
    case hA =>
      intro p hp
      have hpA := List.mem_of_mem_drop hp
      have hpf := List.of_mem_filter hpA
      have : p.1 ∉ sigs := of_decide_eq_true hpf
      exact fun e => this (e ▸ hs)
  · simp only [mark_alert, hfold, evict_oldest_eq_drop, List.length_drop]
    omega

/-- Witness for C10: marking batch `s1, s2` for wallet `W` with bound 3 over
a seen set already holding `old` stamps both signatures and the wallet at
the same instant and leaves at most 3 seen entries. -/
theorem c10_witness :
    ((mark_alert 3 42 "W" ["s1", "s2"] [("old", 1)] [("W", 5)]).2.lookup "W"
        = some 42) ∧
    (∀ s ∈ ["s1", "s2"], (mark_alert 3 42 "W" ["s1", "s2"] [("old", 1)]
        [("W", 5)]).1.lookup s = some 42) ∧
    (mark_alert 3 42 "W" ["s1", "s2"] [("old", 1)] [("W", 5)]).1.length
      ≤ 3 :=
  c10_mark_alert_stamps_and_bound 3 42 "W" ["s1", "s2"] [("old", 1)]
    [("W", 5)] (by norm_num)

/-- Within one UTC day (all call instants at or after the day start), a run
of `check_limit` calls admits at most `limit − current count` further
requests for a key-hash. -/
theorem rlRun_bound (lim : RLimits) (resetTime : ℚ) (h tier : String) :
    ∀ (nows : List ℚ) (counters : List (String × RLEntry)),
      (∀ t ∈ nows, resetTime ≤ t) →
      (∀ e, counters.lookup h = some e →
        resetTime ≤ e.lastReset ∧ e.count ≤ tierLimit lim tier) →
      (rlRun lim resetTime h tier nows counters).1 +
        (((counters.lookup h).map RLEntry.count).getD 0)
          ≤ tierLimit lim tier := by
  intro nows
  induction nows with
  | nil =>
      intro counters _ hinv
      simp only [rlRun]
      cases hc : counters.lookup h with
      | none => simp
      | some e => simpa using (hinv e hc).2
  | cons now rest ih =>
      intro counters hnows hinv
      have hnow : resetTime ≤ now := hnows now (List.mem_cons_self now rest)
      have hrest : ∀ t ∈ rest, resetTime ≤ t :=
        fun t ht => hnows t (List.mem_cons_of_mem now ht)
      cases hc : counters.lookup h with
      | none =>
          have hlt : ¬ now < resetTime := not_lt.mpr hnow
          by_cases hl : 0 < tierLimit lim tier
          · have hnext := ih (dictSet counters h ⟨1, now⟩) hrest
              (by
                intro e' he'
                rw [lookup_dictSet_self] at he'
                cases he'
                exact ⟨hnow, hl⟩)
            rw [lookup_dictSet_self] at hnext
            simp only [Option.map_some', Option.getD_some] at hnext
            simp [rlRun, check_limit, rlLookup, hc, hlt, hl]
            omega
          · have hnext := ih (dictSet counters h ⟨0, now⟩) hrest
              (by
                intro e' he'
                rw [lookup_dictSet_self] at he'
                cases he'
                exact ⟨hnow, Nat.zero_le _⟩)
            rw [lookup_dictSet_self] at hnext
            simp only [Option.map_some', Option.getD_some] at hnext
            simp [rlRun, check_limit, rlLookup, hc, hlt, hl]
            omega
      | some e =>
          obtain ⟨hr, hcnt⟩ := hinv e hc
          have hnr : ¬ e.lastReset < resetTime := not_lt.mpr hr
          by_cases hl : e.count < tierLimit lim tier
          · have hnext := ih (dictSet counters h ⟨e.count + 1, e.lastReset⟩)
              hrest
              (by
                intro e' he'
                rw [lookup_dictSet_self] at he'
                cases he'
                exact ⟨hr, hl⟩)
            rw [lookup_dictSet_self] at hnext
            simp only [Option.map_some', Option.getD_some] at hnext
            simp [rlRun, check_limit, rlLookup, hc, hnr, hl]
            omega
          · have hnext := ih (dictSet counters h ⟨e.count, e.lastReset⟩) hrest
              (by
                intro e' he'
                rw [lookup_dictSet_self] at he'
                cases he'
                exact ⟨hr, hcnt⟩)
            rw [lookup_dictSet_self] at hnext
            simp only [Option.map_some', Option.getD_some] at hnext
            simp [rlRun, check_limit, rlLookup, hc, hnr, hl]
            omega

/-- C5: `check_limit` admits a request exactly when the current day's count
is strictly below the tier limit; it increments the stored count only on
admission and resets it (with the day start as the new reset instant) when
the stored reset instant precedes the current UTC day's start; consequently,
across any sequence of same-day calls for one key-hash and tier, the number
of admitted requests never exceeds the tier limit. -/
theorem c5_rate_limiter_daily_bound (lim : RLimits) (resetTime now : ℚ)
    (counters : List (String × RLEntry)) (h tier : String) (nows : List ℚ) :
    ((check_limit lim resetTime now counters h tier).1.1 = true ↔
      (if (rlLookup counters h now).lastReset < resetTime then 0
        else (rlLookup counters h now).count) < tierLimit lim tier) ∧
    ((check_limit lim resetTime now counters h tier).2.lookup h =
      some ⟨(if (check_limit lim resetTime now counters h tier).1.1 then
          (if (rlLookup counters h now).lastReset < resetTime then 0
            else (rlLookup counters h now).count) + 1
        else
          (if (rlLookup counters h now).lastReset < resetTime then 0
            else (rlLookup counters h now).count)),
        (if (rlLookup counters h now).lastReset < resetTime then resetTime
          else (rlLookup counters h now).lastReset)⟩) ∧
    ((∀ t ∈ nows, resetTime ≤ t) →
      (rlRun lim resetTime h tier nows []).1 ≤ tierLimit lim tier) := by
  refine ⟨?_, ?_, ?_⟩
  · simp [check_limit]
  · simp only [check_limit]
    exact lookup_dictSet_self counters h _
  · intro hnows
    have := rlRun_bound lim resetTime h tier nows [] hnows
      (by intro e he; cases he)
    simpa using this

/-- Witness for C5: a free tier limited to 2 admits at most 2 of 3 same-day
requests starting from an empty counter map. -/
theorem c5_witness :
    (rlRun ⟨2, 5, 7⟩ 0 "kh" "free" [1, 2, 3] []).1
      ≤ tierLimit ⟨2, 5, 7⟩ "free" :=
  (c5_rate_limiter_daily_bound ⟨2, 5, 7⟩ 0 1 [] "kh" "free" [1, 2, 3]).2.2
    (by norm_num)

/-- Loop characterisation of `estimate_profit_enriched`: over any processed
transaction list the accumulator's profit is the sum of per-transaction
native, priced-token and wrapped-native deltas minus the fee sum; the fee
total is the fee sum; the fee flag holds exactly when every processed fee is
nonzero; and the two alignment sums are the corresponding absolute-value
sums. -/
theorem est_fold_spec (wallet : String) (jup bird : String → Option ℚ)
    (key : String) :
    ∀ (txs : List Tx) (s0 : EstState),
      (txs.foldl (process_tx wallet jup bird key) s0).profit
        = s0.profit + ((txDeltas wallet jup bird key s0.cache txs).map
            (fun d => d.1 + d.2.1 + d.2.2)).sum - sumFees txs ∧
      (txs.foldl (process_tx wallet jup bird key) s0).feeTotal
        = s0.feeTotal + sumFees txs ∧
      (txs.foldl (process_tx wallet jup bird key) s0).feeKnown
        = (s0.feeKnown && txs.all (fun tx =>
            !(decide (((tx.meta.fee.getD 0 : ℚ)) / 1000000000 = 0)))) ∧
      (txs.foldl (process_tx wallet jup bird key) s0).solDeltaSum
        = s0.solDeltaSum + ((txDeltas wallet jup bird key s0.cache txs).map
            (fun d => |d.2.2| + |d.1|)).sum ∧
      (txs.foldl (process_tx wallet jup bird key) s0).tokenDeltaSum
        = s0.tokenDeltaSum + ((txDeltas wallet jup bird key s0.cache txs).map
            (fun d => |d.2.1|)).sum := by
  intro txs
  induction txs with
  | nil => intro s0; simp [txDeltas, sumFees]
  | cons tx rest ih =>
      intro s0
      obtain ⟨hp, hf, hk, hs, ht⟩ := ih (process_tx wallet jup bird key s0 tx)
      refine ⟨?_, ?_, ?_, ?_, ?_⟩
      · rw [List.foldl_cons, hp]
        simp only [process_tx, txDeltas, sumFees, List.map_cons,
          List.sum_cons]
        ring
      · rw [List.foldl_cons, hf]
        simp only [process_tx, sumFees, List.map_cons, List.sum_cons]
        ring
      · rw [List.foldl_cons, hk]
        simp only [process_tx, List.all_cons, Bool.and_assoc]
      · rw [List.foldl_cons, hs]
        simp only [process_tx, txDeltas, List.map_cons, List.sum_cons]
        ring
      · rw [List.foldl_cons, ht]
        simp only [process_tx, txDeltas, List.map_cons, List.sum_cons]
        ring

/-- A lamport amount divided by `10^9` vanishes exactly when it is zero. -/
theorem nat_div_1e9_eq_zero (n : Nat) :
    ((n : ℚ)) / 1000000000 = 0 ↔ n = 0 := by
  rw [div_eq_zero_iff]
  norm_num

/-- C3 counterexample: a processed transaction whose fee field is present
and equal to zero clears `fee_known`, so the flag is not equivalent to
"some fee is missing": here no fee is missing, yet the flag is false. -/
theorem c3_counterexample_zero_fee_present :
    (estimate_state (fun _ => some fee_zero_tx) "W" [⟨some "s", none⟩] 1 []
        no_oracle no_oracle "").feeKnown = false ∧
    (∀ tx ∈ processed_txs (fun _ => some fee_zero_tx) [⟨some "s", none⟩] 1,
        tx.meta.fee ≠ none) := by
  constructor
  · simp [estimate_state, processed_txs, sigTruthy, process_tx, initEstState,
      fee_zero_tx]
  · simp [processed_txs, sigTruthy, fee_zero_tx]

/-- C3 amended: for every call, `fee / 10^9` is subtracted per processed
transaction (the profit is the delta sum minus the fee sum, and the fee
total is the fee sum); `fee_known` is false exactly when some processed
transaction's fee is missing or zero (a missing fee defaults to 0); and the
`fee_completeness` sub-metric equals 1 exactly when `fee_known` is true. -/
theorem c3_fee_subtraction_and_flag (rpc : String → Option Tx)
    (wallet : String) (sigs : List SigInfo) (maxTx : Nat) (cache : PriceMap)
    (jup bird : String → Option ℚ) (key : String) (tol : ℚ) :
    (estimate_state rpc wallet sigs maxTx cache jup bird key).profit
      = ((txDeltas wallet jup bird key cache
            (processed_txs rpc sigs maxTx)).map
          (fun d => d.1 + d.2.1 + d.2.2)).sum
        - sumFees (processed_txs rpc sigs maxTx) ∧
    (estimate_state rpc wallet sigs maxTx cache jup bird key).feeTotal
      = sumFees (processed_txs rpc sigs maxTx) ∧
    ((estimate_state rpc wallet sigs maxTx cache jup bird key).feeKnown
        = false ↔
      ∃ tx ∈ processed_txs rpc sigs maxTx, tx.meta.fee.getD 0 = 0) ∧
    ((estimate_profit_enriched rpc wallet sigs maxTx cache jup bird key
        tol).2.2.2.2.fee_completeness = 1 ↔
      (estimate_state rpc wallet sigs maxTx cache jup bird key).feeKnown
        = true) := by
  obtain ⟨hp, hf, hk, _, _⟩ := est_fold_spec wallet jup bird key
    (processed_txs rpc sigs maxTx) (initEstState cache)
  refine ⟨?_, ?_, ?_, ?_⟩
  · rw [estimate_state, hp]
    simp [initEstState]
  · rw [estimate_state, hf]
    simp [initEstState]
  · rw [estimate_state, hk]
    simp only [initEstState, Bool.true_and]
    simp [List.all_eq_false, nat_div_1e9_eq_zero]
  · cases hfk : (estimate_state rpc wallet sigs maxTx cache jup bird
        key).feeKnown <;>
      simp [estimate_profit_enriched, hfk]

/-- C4 counterexample: on an input with no processed transactions both
`total_valorized` and `total_observed` are 0; the claim's formula (no
positivity guard) yields alignment 1 there, but the code returns 0.5
because it additionally requires `total_valorized > 0`. -/
theorem c4_counterexample_zero_valorized :
    (estimate_profit_enriched (fun _ => none) "W" [] 5 [] no_oracle no_oracle
        "" 10).2.2.2.2.balance_alignment = 1 / 2 ∧
    |(estimate_state (fun _ => none) "W" [] 5 [] no_oracle no_oracle
        "").solDeltaSum|
      + (estimate_state (fun _ => none) "W" [] 5 [] no_oracle no_oracle
        "").tokenDeltaSum = 0 ∧
    |(estimate_state (fun _ => none) "W" [] 5 [] no_oracle no_oracle
        "").profit|
      + (estimate_state (fun _ => none) "W" [] 5 [] no_oracle no_oracle
        "").feeTotal = 0 ∧
    spec_balance_alignment 0 0 (10 / 100) = 1 := by
  refine ⟨?_, ?_, ?_, ?_⟩
  · simp [estimate_profit_enriched, estimate_state, processed_txs,
      initEstState]
  · simp [estimate_state, processed_txs, initEstState]
  · simp [estimate_state, processed_txs, initEstState]
  · rw [spec_balance_alignment]
    norm_num

/-- C4 amended: the `balance_alignment` sub-metric follows the spec's
formula only when `total_valorized` is strictly positive and is 0.5
otherwise (in particular when `total_valorized` is zero); `total_valorized`
and `total_observed` are built from the per-transaction absolute delta sums,
the profit and the fee total of the run. -/
theorem c4_balance_alignment_guarded (rpc : String → Option Tx)
    (wallet : String) (sigs : List SigInfo) (maxTx : Nat) (cache : PriceMap)
    (jup bird : String → Option ℚ) (key : String) (tol : ℚ) :
    (estimate_profit_enriched rpc wallet sigs maxTx cache jup bird key
        tol).2.2.2.2.balance_alignment
      = (if 0 < |(estimate_state rpc wallet sigs maxTx cache jup bird
            key).solDeltaSum|
            + (estimate_state rpc wallet sigs maxTx cache jup bird
              key).tokenDeltaSum
        then spec_balance_alignment
          (|(estimate_state rpc wallet sigs maxTx cache jup bird
              key).solDeltaSum|
            + (estimate_state rpc wallet sigs maxTx cache jup bird
              key).tokenDeltaSum)
          (|(estimate_state rpc wallet sigs maxTx cache jup bird
              key).profit|
            + (estimate_state rpc wallet sigs maxTx cache jup bird
              key).feeTotal)
          (tol / 100)
        else 1 / 2) ∧
    (estimate_state rpc wallet sigs maxTx cache jup bird key).solDeltaSum
      = ((txDeltas wallet jup bird key cache
            (processed_txs rpc sigs maxTx)).map
          (fun d => |d.2.2| + |d.1|)).sum ∧
    (estimate_state rpc wallet sigs maxTx cache jup bird key).tokenDeltaSum
      = ((txDeltas wallet jup bird key cache
            (processed_txs rpc sigs maxTx)).map (fun d => |d.2.1|)).sum ∧
    (estimate_state rpc wallet sigs maxTx cache jup bird key).feeTotal
      = sumFees (processed_txs rpc sigs maxTx) := by
  obtain ⟨_, hf, _, hs, ht⟩ := est_fold_spec wallet jup bird key
    (processed_txs rpc sigs maxTx) (initEstState cache)
  refine ⟨?_, ?_, ?_, ?_⟩
  · by_cases htv : 0 < |(estimate_state rpc wallet sigs maxTx cache jup bird
        key).solDeltaSum|
        + (estimate_state rpc wallet sigs maxTx cache jup bird
          key).tokenDeltaSum
    · by_cases hc : |(|(estimate_state rpc wallet sigs maxTx cache jup bird
            key).solDeltaSum|
            + (estimate_state rpc wallet sigs maxTx cache jup bird
              key).tokenDeltaSum)
          - (|(estimate_state rpc wallet sigs maxTx cache jup bird
              key).profit|
            + (estimate_state rpc wallet sigs maxTx cache jup bird
              key).feeTotal)|
          / max (|(estimate_state rpc wallet sigs maxTx cache jup bird
              key).solDeltaSum|
            + (estimate_state rpc wallet sigs maxTx cache jup bird
              key).tokenDeltaSum) (1 / 1000000000) ≤ tol / 100 <;>
        simp [estimate_profit_enriched, spec_balance_alignment, htv, hc]
    · simp [estimate_profit_enriched, htv]
  · rw [estimate_state, hs]
    simp [initEstState]
  · rw [estimate_state, ht]
    simp [initEstState]
  · rw [estimate_state, hf]
    simp [initEstState]

/-- C2 amended: a single-transaction run whose only wallet effect is a
wrapped-native (WSOL) balance change of `Δ = deltaLamports / 10^9` computes
exactly the same profit as the run on the same transaction with the change
appearing as a native balance delta of the same amount — in particular the
profits agree within `1e-9`.  The confidence labels, however, need not
agree (see the counterexample): the wrapped variant counts the WSOL mint in
`total_tokens` while never pricing it, which can lower `price_coverage` and
hence the label. -/
theorem c2_wrapped_native_profit_parity (wallet : String)
    (preLamports baseLamports deltaLamports : Int) (preWsol : ℚ)
    (fee : Option Nat) (cache : PriceMap) (jup bird : String → Option ℚ)
    (key : String) (tol : ℚ) :
    (estimate_profit_enriched
        (fun _ => some (native_delta_tx wallet preLamports deltaLamports fee))
        wallet [⟨some "s", none⟩] 1 cache jup bird key tol).1
      = (estimate_profit_enriched
        (fun _ => some (wsol_delta_tx wallet baseLamports preWsol
          deltaLamports fee))
        wallet [⟨some "s", none⟩] 1 cache jup bird key tol).1 ∧
    |(estimate_profit_enriched
        (fun _ => some (native_delta_tx wallet preLamports deltaLamports fee))
        wallet [⟨some "s", none⟩] 1 cache jup bird key tol).1
      - (estimate_profit_enriched
        (fun _ => some (wsol_delta_tx wallet baseLamports preWsol
          deltaLamports fee))
        wallet [⟨some "s", none⟩] 1 cache jup bird key tol).1|
      ≤ 1 / 1000000000 := by
  have hmain : (estimate_profit_enriched
      (fun _ => some (native_delta_tx wallet preLamports deltaLamports fee))
      wallet [⟨some "s", none⟩] 1 cache jup bird key tol).1
    = (estimate_profit_enriched
      (fun _ => some (wsol_delta_tx wallet baseLamports preWsol
        deltaLamports fee))
      wallet [⟨some "s", none⟩] 1 cache jup bird key tol).1 := by
    simp only [estimate_profit_enriched]
    simp [estimate_state, processed_txs, sigTruthy, process_tx, initEstState,
      native_delta_tx, wsol_delta_tx, lamport_change, estimate_token_delta,
      walletMints, txMints, txPrograms, tokenAmount, List.indexOf?,
      WSOL_MINT]
    by_cases h : |(deltaLamports : ℚ) / 1000000000| < 1000000000⁻¹
    · have h1 : |(deltaLamports : ℚ)| < 1 := by
        rw [abs_div] at h
        rw [show |(1000000000 : ℚ)| = 1000000000 from by norm_num] at h
        rw [div_lt_iff₀ (by norm_num : (0:ℚ) < 1000000000)] at h
        simpa using h
      have h3 : |deltaLamports| < 1 := by
        rw [← Int.cast_abs] at h1
        exact_mod_cast h1
      have h4 := abs_lt.mp h3
      have hd : deltaLamports = 0 := by omega
      simp [h, hd]
    · simp [h]
  exact ⟨hmain, by rw [hmain]; simp⟩

/-- C2 counterexample: a +3 SOL trade with fee `10^9` lamports yields the
same profit whether expressed natively or as a WSOL balance change, but the
confidence labels differ: `high` for the native form, `med` for the wrapped
form (the unpriced WSOL mint drives `price_coverage` to 0). -/
theorem c2_counterexample_confidence_differs :
    (estimate_profit_enriched rpc_native_fixture "W" [⟨some "s", none⟩] 1 []
        no_oracle no_oracle "" 10).1
      = (estimate_profit_enriched rpc_wsol_fixture "W" [⟨some "s", none⟩] 1 []
        no_oracle no_oracle "" 10).1 ∧
    (estimate_profit_enriched rpc_native_fixture "W" [⟨some "s", none⟩] 1 []
        no_oracle no_oracle "" 10).2.1 = "high" ∧
    (estimate_profit_enriched rpc_wsol_fixture "W" [⟨some "s", none⟩] 1 []
        no_oracle no_oracle "" 10).2.1 = "med" ∧
    (estimate_profit_enriched rpc_native_fixture "W" [⟨some "s", none⟩] 1 []
        no_oracle no_oracle "" 10).2.1
      ≠ (estimate_profit_enriched rpc_wsol_fixture "W" [⟨some "s", none⟩] 1 []
        no_oracle no_oracle "" 10).2.1 := by
  have hstN : estimate_state rpc_native_fixture "W" [⟨some "s", none⟩] 1 []
      no_oracle no_oracle ""
      = ⟨2, 0, 0, 0, [], true, 1, 3, 0, [], [], []⟩ := by
    simp [estimate_state, processed_txs, sigTruthy, rpc_native_fixture,
      process_tx, initEstState, native_delta_tx, lamport_change,
      estimate_token_delta, walletMints, txMints, txPrograms, tokenAmount,
      List.indexOf?, WSOL_MINT]
    norm_num
  have hstW : estimate_state rpc_wsol_fixture "W" [⟨some "s", none⟩] 1 []
      no_oracle no_oracle ""
      = ⟨2, 1, 0, 0, [WSOL_MINT], true, 1, 3, 0, [], [], []⟩ := by
    simp [estimate_state, processed_txs, sigTruthy, rpc_wsol_fixture,
      process_tx, initEstState, wsol_delta_tx, lamport_change,
      estimate_token_delta, walletMints, txMints, txPrograms, tokenAmount,
      List.indexOf?, WSOL_MINT]
    norm_num
  have hN : (estimate_profit_enriched rpc_native_fixture "W"
      [⟨some "s", none⟩] 1 [] no_oracle no_oracle "" 10).2.1 = "high" := by
    simp only [estimate_profit_enriched, hstN]
    norm_num
    decide
  have hW : (estimate_profit_enriched rpc_wsol_fixture "W"
      [⟨some "s", none⟩] 1 [] no_oracle no_oracle "" 10).2.1 = "med" := by
    simp only [estimate_profit_enriched, hstW]
    norm_num
  refine ⟨?_, hN, hW, ?_⟩
  · simp only [estimate_profit_enriched, hstN, hstW]
  · rw [hN, hW]
    decide
